import Mathlib

/-!
Verification development for a dual-channel audio relay server
(`src/server/server.py`).  The server forwards interleaved 16-bit stereo PCM
from a client websocket to a speech-recognition gateway, consumes the
JSON transcription events of the gateway, maintains per-channel interim snapshots
and append-only final transcript logs, and (in debug mode) deinterleaves the
forwarded audio into per-channel byte accumulators from which bounded-count
WAV snippets are cut.

The embedding is shallow:
* Gateway events are modelled as already-parsed JSON values (`JVal`); a text
  message that fails `json.loads` is modelled as `none`.
* JSON numbers are modelled as exact decimals `mant * 10 ^ (-exp)` (`Dec`);
  the Python floats they become are value-faithful for every operation the
  server performs on them (truthiness, `float(x or 0.0)`, `:.2f` formatting).
* Python runtime errors are explicit (`PyErr`).  The per-event handler of
  `handle_transcriptions` catches exactly `json.JSONDecodeError` and
  `KeyError`; every other raised error escapes to the outer handler, which
  logs and ends the event loop.
* File effects are modelled as a `Store`: the per-channel dict
  `LATEST_INTERIM` keyed by Python hash-keys (`PyKey`), append-only final
  log files and overwritten interim files keyed by their file names.
  Container-valued channel indices (which Python would stringify into file
  names element-wise) are collapsed to a placeholder name; they can only
  arise from a malformed `channel_index` and no two distinct container
  indices are ever compared here.
* The audio path (`forward_audio`) is modelled over byte lists, with the
  websocket sends, WAV snippet writes, the finalize directive, the grace
  sleep and the gateway close recorded as an `Action` trace.
-/

namespace SF

/-! ## Exact decimal numbers (JSON number literals) -/

/-- A JSON number literal, valued `mant / 10 ^ exp`.  This represents the
decimal the gateway serialises; the Python float obtained from it agrees
with it on every operation the server applies. -/
structure Dec where
  mant : ℤ
  exp : ℕ
  deriving DecidableEq

/-- Rational value of a decimal (used only in specification statements). -/
def Dec.val (d : Dec) : ℚ := (d.mant : ℚ) / (10 : ℚ) ^ d.exp

/-- Strip removable factors of ten; fuel is the exponent, which bounds the
number of removable factors. -/
def canonDecAux : ℕ → ℤ → ℕ → Dec
  | 0, m, e => ⟨m, e⟩
  | fuel + 1, m, e =>
    if e = 0 then ⟨m, e⟩
    else if m % 10 = 0 then canonDecAux fuel (m / 10) (e - 1)
    else ⟨m, e⟩

/-- Canonical form of a decimal: two decimals denote the same Python float
key for the `LATEST_INTERIM` dict iff their canonical forms are equal. -/
def canonDec (d : Dec) : Dec := canonDecAux d.exp d.mant d.exp

/-- Left-pad a digit string with zeros to the given width. -/
def padZeros (n : ℕ) (s : String) : String :=
  String.mk (List.replicate (n - s.length) '0') ++ s

/-- Python `str` of a decimal: integers render without a point (matching
`str(int)`); fractional values render with all `exp` digits.  (Python float
repr would drop trailing zeros of a fractional value; such values never
occur as channel indices, the only place this rendering is used.) -/
def decStr (d : Dec) : String :=
  if d.exp = 0 then toString d.mant
  else
    (if d.mant < 0 then "-" else "") ++
      toString (d.mant.natAbs / 10 ^ d.exp) ++ "." ++
        padZeros d.exp (toString (d.mant.natAbs % 10 ^ d.exp))

/-- Python percent-point-2f formatting on the float denoted by a decimal:
round the value
times 100 to an integer, ties to even, and print with two fraction digits.
Integer arithmetic only: with `p = 10 ^ exp`, the value times 100 is
`(mant * 100) / p`. -/
def fmtDec2 (d : Dec) : String :=
  let p : ℤ := (10 : ℤ) ^ d.exp
  let a : ℤ := d.mant * 100
  let f : ℤ := a.fdiv p
  let r2 : ℤ := 2 * (a - f * p)
  let n : ℤ := if r2 < p then f else if p < r2 then f + 1
    else if f % 2 = 0 then f else f + 1
  (if n < 0 then "-" else "") ++ toString (n.natAbs / 100) ++ "." ++
    (if n.natAbs % 100 < 10 then "0" else "") ++ toString (n.natAbs % 100)

/-! ## Python JSON values and the runtime operations the server uses -/

/-- A parsed JSON value, as produced by `json.loads`. -/
inductive JVal where
  | jnull
  | jbool (b : Bool)
  | jnum (n : Dec)
  | jstr (s : String)
  | jarr (elems : List JVal)
  | jobj (fields : List (String × JVal))

/-- Python runtime errors relevant to `handle_transcriptions`.  The
per-event handler catches only `json.JSONDecodeError` (modelled by a `none`
event) and `keyErr`. -/
inductive PyErr where
  | keyErr
  | typeErr
  | indexErr
  | attrErr
  | valueErr
  deriving DecidableEq

/-- First-match association lookup (Python dict access order). -/
def alookup {κ α : Type} [DecidableEq κ] (k : κ) : List (κ × α) → Option α
  | [] => none
  | p :: rest => if p.1 = k then some p.2 else alookup k rest

/-- Python truthiness of a JSON value. -/
def truthy : JVal → Bool
  | .jnull => false
  | .jbool b => b
  | .jnum d => decide (d.mant ≠ 0)
  | .jstr s => decide (s ≠ "")
  | .jarr [] => false
  | .jarr (_ :: _) => true
  | .jobj [] => false
  | .jobj (_ :: _) => true

/-- Is `needle` a leading piece of `hay`? (helper for Python `in` on str). -/
def strLeads : List Char → List Char → Bool
  | [], _ => true
  | _ :: _, [] => false
  | a :: as, b :: bs => a == b && strLeads as bs

/-- Does `hay` contain `needle` somewhere? (Python `needle in hay` on str). -/
def strHas (needle : List Char) : List Char → Bool
  | [] => strLeads needle []
  | b :: bs => strLeads needle (b :: bs) || strHas needle bs

/-- Python `key in v`: dict key membership, list element equality against the
string, substring test on str; `TypeError` on non-containers. -/
def pyContains (key : String) : JVal → Except PyErr Bool
  | .jobj fs => .ok (alookup key fs).isSome
  | .jarr xs =>
    .ok (xs.any fun x => match x with | .jstr s => decide (s = key) | _ => false)
  | .jstr s => .ok (strHas key.data s.data)
  | _ => .error .typeErr

/-- Python `v[key]` with a string key: dict lookup (`KeyError` when absent);
lists and strings reject string indices with `TypeError`. -/
def pySubscrStr (v : JVal) (key : String) : Except PyErr JVal :=
  match v with
  | .jobj fs =>
    match alookup key fs with
    | some x => .ok x
    | none => .error .keyErr
  | _ => .error .typeErr

/-- Python `v[0]`: list head (`IndexError` when empty), first character of a
string (`IndexError` when empty), `KeyError` on a string-keyed dict,
`TypeError` otherwise. -/
def pySubscrZero (v : JVal) : Except PyErr JVal :=
  match v with
  | .jarr [] => .error .indexErr
  | .jarr (x :: _) => .ok x
  | .jstr s =>
    match s.data with
    | [] => .error .indexErr
    | c :: _ => .ok (.jstr (String.mk [c]))
  | .jobj _ => .error .keyErr
  | _ => .error .typeErr

/-- Python `v.get(key, dflt)`: only dicts have `.get` (`AttributeError`
otherwise). -/
def pyGet (v : JVal) (key : String) (dflt : JVal) : Except PyErr JVal :=
  match v with
  | .jobj fs => .ok ((alookup key fs).getD dflt)
  | _ => .error .attrErr

/-- Python `str.strip()` (ASCII whitespace, which covers every transcript
the model reasons about). -/
def pyStrip (s : String) : String :=
  String.mk (((s.data.dropWhile Char.isWhitespace).reverse.dropWhile
    Char.isWhitespace).reverse)

/-- Python `transcript and transcript.strip()` as used on lines 195, 229 and
233: `ok (some s)` when the value is a string whose strip is truthy,
`ok none` when the whole expression is falsy, `AttributeError` when a truthy
non-string is stripped. -/
def checkTranscript : JVal → Except PyErr (Option String)
  | .jstr s => .ok (if pyStrip s = "" then none else some s)
  | v => if truthy v then .error .attrErr else .ok none

/-- Python two-decimal float formatting: formats numbers (and bools, via
int) to two decimal
places; `ValueError` for strings, `TypeError` for the rest. -/
def pyFmt2f : JVal → Except PyErr String
  | .jnum d => .ok (fmtDec2 d)
  | .jbool b => .ok (if b then "1.00" else "0.00")
  | .jstr _ => .error .valueErr
  | _ => .error .typeErr

/-- Python `float(v or 0.0)` (line 210/236).  A falsy value gives `0.0`; a
truthy number or bool converts; truthy strings or containers raise.  (The
string case is unreachable: the print on line 198/226 has already formatted
the same value.) -/
def pyOrFloat (v : JVal) : Except PyErr Dec :=
  if truthy v then
    match v with
    | .jnum d => .ok d
    | .jbool b => .ok ⟨if b then 1 else 0, 0⟩
    | .jstr _ => .error .valueErr
    | _ => .error .typeErr
  else .ok ⟨0, 0⟩

/-- Python `enumerate(v)` iteration source: lists iterate elements, strings
iterate characters, dicts iterate keys; `TypeError` otherwise. -/
def pyIter : JVal → Except PyErr (List JVal)
  | .jarr xs => .ok xs
  | .jstr s => .ok (s.data.map fun c => .jstr (String.mk [c]))
  | .jobj fs => .ok (fs.map fun p => .jstr p.1)
  | _ => .error .typeErr

/-- A Python dict key with Python `==`/hash semantics: numbers and bools
share one numeric key space (`0 == 0.0 == False`), strings and `None` are
their own; lists and dicts are unhashable (`TypeError`). -/
inductive PyKey where
  | knum (d : Dec)
  | kstr (s : String)
  | knone
  deriving DecidableEq

/-- Convert a value to the dict key used by `LATEST_INTERIM[channel_index]`;
numbers are canonicalised so that value-equal floats collide as in Python. -/
def toKey : JVal → Except PyErr PyKey
  | .jnull => .ok .knone
  | .jbool b => .ok (.knum ⟨if b then 1 else 0, 0⟩)
  | .jnum d => .ok (.knum (canonDec d))
  | .jstr s => .ok (.kstr s)
  | _ => .error .typeErr

/-- Python `str(v)` as interpolated into the channel file names.
Container reprs are collapsed to placeholders: they arise only from
malformed channel indices and are never compared against each other. -/
def pyStrOf : JVal → String
  | .jnull => "None"
  | .jbool b => if b then "True" else "False"
  | .jnum d => decStr d
  | .jstr s => s
  | .jarr _ => "<list repr>"
  | .jobj _ => "<dict repr>"

/-! ## The transcript state store and its effects -/

/-- One entry of `LATEST_INTERIM`. -/
structure Interim where
  transcript : String
  confidence : Dec
  timestamp : String
  deriving DecidableEq

/-- The observable state the event processor mutates: the in-memory interim
dict, the per-file append-only final transcript logs, and the per-file
current interim file contents. -/
structure Store where
  interim : List (PyKey × Interim)
  finalLog : List (String × List String)
  interimFile : List (String × String)
  deriving DecidableEq

/-- One store mutation. -/
inductive StoreEff where
  | appendFinal (file : String) (line : String)
  | setInterim (k : PyKey) (v : Interim)
  | setInterimFile (file : String) (content : String)
  deriving DecidableEq

/-- Dict update: overwrite the existing slot, else append a new one
(insertion order, as Python dicts). -/
def dictSet {κ α : Type} [DecidableEq κ] (d : List (κ × α)) (k : κ) (v : α) :
    List (κ × α) :=
  match alookup k d with
  | some _ => d.map fun p => if p.1 = k then (k, v) else p
  | none => d ++ [(k, v)]

/-- Append a line to a (possibly fresh) log file, as `open(f, "a")` does. -/
def logAppend (d : List (String × List String)) (k : String) (line : String) :
    List (String × List String) :=
  match alookup k d with
  | some ls => d.map fun p => if p.1 = k then (k, ls ++ [line]) else p
  | none => d ++ [(k, [line])]

def applyEff (st : Store) : StoreEff → Store
  | .appendFinal file line => { st with finalLog := logAppend st.finalLog file line }
  | .setInterim k v => { st with interim := dictSet st.interim k v }
  | .setInterimFile file content =>
    { st with interimFile := dictSet st.interimFile file content }

def applyEffs (st : Store) (effs : List StoreEff) : Store := effs.foldl applyEff st

/-- The transcript line format of `write_transcription_to_file` and of a
nonempty interim write. -/
def finalLine (ts conf2f t : String) : String :=
  "[" ++ ts ++ "] (confidence: " ++ conf2f ++ ") " ++ t ++ "\n"

/-- The sentinel line `write_interim_to_file` writes for an empty interim. -/
def noInterimLine (ts : String) : String := "[" ++ ts ++ "] <no interim>\n"

def finalFileName (key : JVal) : String := "channel_" ++ pyStrOf key ++ ".txt"

def interimFileName (key : JVal) : String :=
  "channel_" ++ pyStrOf key ++ "_interim.txt"

/-- Model of `write_transcription_to_file(channel_num, transcript,
confidence)` (lines 56-64): append one timestamped confidence-annotated
line. -/
def write_transcription_to_file (ts : String) (key : JVal) (conf2f t : String) :
    StoreEff :=
  .appendFinal (finalFileName key) (finalLine ts conf2f t)

/-- Model of `write_interim_to_file(channel_num, transcript, confidence)`
(lines 66-74): overwrite the interim file with the transcript line, or with
the sentinel when the transcript is empty or whitespace. -/
def write_interim_to_file (ts : String) (key : JVal) (t conf2f : String) :
    StoreEff :=
  .setInterimFile (interimFileName key)
    (if pyStrip t = "" then noInterimLine ts else finalLine ts conf2f t)

/-- The final-result path (lines 202-205 and 230-232): append to the final
log, then clear the interim dict slot, then write the interim sentinel file.
The dict assignment raises `TypeError` for an unhashable index, after the
log append already happened. -/
def recordFinalRaw (ts : String) (key : JVal) (conf2f t : String) :
    List StoreEff × Option PyErr :=
  match toKey key with
  | .error e => ([write_transcription_to_file ts key conf2f t], some e)
  | .ok pk =>
    ([write_transcription_to_file ts key conf2f t,
      .setInterim pk ⟨"", ⟨0, 0⟩, ts⟩,
      write_interim_to_file ts key "" "0.00"], none)

/-- The interim-result path (lines 208-213 and 234-239): overwrite the
interim dict slot, then the interim file.  An unhashable index raises before
any mutation. -/
def recordInterimRaw (ts : String) (key : JVal) (t : String) (confF : Dec)
    (conf2f : String) : List StoreEff × Option PyErr :=
  match toKey key with
  | .error e => ([], some e)
  | .ok pk =>
    ([.setInterim pk ⟨t, confF, ts⟩, write_interim_to_file ts key t conf2f], none)

/-! ## The transcription event processor (`handle_transcriptions`) -/

/-- The single-channel-shape branch body (lines 186-213), entered once
`"channel" in response and "alternatives" in response["channel"]` held. -/
def singleBranch (ts : String) (response channelData : JVal) :
    List StoreEff × Option PyErr :=
  match pySubscrStr channelData "alternatives" with
  | .error e => ([], some e)
  | .ok alternatives =>
    if truthy alternatives then
      match pySubscrZero alternatives with
      | .error e => ([], some e)
      | .ok alt0 =>
        match pyGet alt0 "transcript" (.jstr "") with
        | .error e => ([], some e)
        | .ok transcript =>
          match pyGet response "is_final" (.jbool false) with
          | .error e => ([], some e)
          | .ok isFinal =>
            match pyGet alt0 "confidence" (.jnum ⟨0, 0⟩) with
            | .error e => ([], some e)
            | .ok confidence =>
              match pyGet response "channel_index" (.jarr [.jnum ⟨0, 0⟩]) with
              | .error e => ([], some e)
              | .ok ciList =>
                match pySubscrZero ciList with
                | .error e => ([], some e)
                | .ok channelIndex =>
                  match checkTranscript transcript with
                  | .error e => ([], some e)
                  | .ok none => ([], none)
                  | .ok (some tstr) =>
                    match pyFmt2f confidence with
                    | .error e => ([], some e)
                    | .ok conf2f =>
                      if truthy isFinal then
                        recordFinalRaw ts channelIndex conf2f tstr
                      else
                        match pyOrFloat confidence with
                        | .error e => ([], some e)
                        | .ok confF =>
                          recordInterimRaw ts channelIndex tstr confF conf2f
    else ([], none)

/-- One iteration of the multichannel loop body (lines 222-239) at
enumerate index `i`. -/
def chanStep (ts : String) (isFinal : JVal) (i : ℕ) (channel : JVal) :
    List StoreEff × Option PyErr :=
  match pyContains "alternatives" channel with
  | .error e => ([], some e)
  | .ok false => ([], none)
  | .ok true =>
    match pySubscrStr channel "alternatives" with
    | .error e => ([], some e)
    | .ok alts =>
      if truthy alts then
        match pySubscrZero alts with
        | .error e => ([], some e)
        | .ok alt0 =>
          match pySubscrStr alt0 "transcript" with
          | .error e => ([], some e)
          | .ok transcript =>
            match pyGet alt0 "confidence" (.jnum ⟨0, 0⟩) with
            | .error e => ([], some e)
            | .ok confidence =>
              if truthy transcript then
                match pyFmt2f confidence with
                | .error e => ([], some e)
                | .ok conf2f =>
                  if truthy isFinal then
                    match checkTranscript transcript with
                    | .error e => ([], some e)
                    | .ok (some tstr) =>
                      recordFinalRaw ts (.jnum ⟨(i : ℤ), 0⟩) conf2f tstr
                    | .ok none => ([], none)
                  else
                    match checkTranscript transcript with
                    | .error e => ([], some e)
                    | .ok (some tstr) =>
                      match pyOrFloat confidence with
                      | .error e => ([], some e)
                      | .ok confF =>
                        recordInterimRaw ts (.jnum ⟨(i : ℤ), 0⟩) tstr confF conf2f
                    | .ok none => ([], none)
              else ([], none)
      else ([], none)

/-- The `for i, channel in enumerate(channels)` loop (lines 221-239): an
error raised in one iteration keeps the effects of earlier iterations and
aborts the rest. -/
def multiLoop (ts : String) (isFinal : JVal) (i : ℕ) :
    List JVal → List StoreEff × Option PyErr
  | [] => ([], none)
  | channel :: rest =>
    match chanStep ts isFinal i channel with
    | (effs, some e) => (effs, some e)
    | (effs, none) =>
      let r := multiLoop ts isFinal (i + 1) rest
      (effs ++ r.1, r.2)

/-- The multichannel-shape branch (lines 216-239), tried when the
single-channel condition did not hold. -/
def elifMulti (ts : String) (response : JVal) : List StoreEff × Option PyErr :=
  match pyContains "results" response with
  | .error e => ([], some e)
  | .ok false => ([], none)
  | .ok true =>
    match pySubscrStr response "results" with
    | .error e => ([], some e)
    | .ok results =>
      match pyContains "channels" results with
      | .error e => ([], some e)
      | .ok false => ([], none)
      | .ok true =>
        match pySubscrStr results "channels" with
        | .error e => ([], some e)
        | .ok channelsVal =>
          match pyGet response "is_final" (.jbool false) with
          | .error e => ([], some e)
          | .ok isFinal =>
            match pyIter channelsVal with
            | .error e => ([], some e)
            | .ok channelList => multiLoop ts isFinal 0 channelList

/-- The per-event body (lines 182-239) applied to one parsed response:
the effects executed before any raise, plus the raised error if any. -/
def processBody (ts : String) (response : JVal) : List StoreEff × Option PyErr :=
  match pyContains "channel" response with
  | .error e => ([], some e)
  | .ok false => elifMulti ts response
  | .ok true =>
    match pySubscrStr response "channel" with
    | .error e => ([], some e)
    | .ok channelData =>
      match pyContains "alternatives" channelData with
      | .error e => ([], some e)
      | .ok false => elifMulti ts response
      | .ok true => singleBranch ts response channelData

/-- One event through the per-event try/except (lines 181-244): a parse
failure (`none`) is caught and dropped, a raised `KeyError` is caught with
the partial effects kept; any other error escapes the handler. -/
def processEvent (ts : String) (ev : Option JVal) : List StoreEff × Option PyErr :=
  match ev with
  | none => ([], none)
  | some response =>
    match processBody ts response with
    | (effs, some .keyErr) => (effs, none)
    | r => r

/-- The event loop (lines 179-251): apply events in order; an uncaught
per-event error reaches the outer handler, which logs and ends the loop.
Returns the final store and whether the whole stream was consumed. -/
def processEvents : Store → List (String × Option JVal) → Store × Bool
  | st, [] => (st, true)
  | st, (ts, ev) :: rest =>
    match processEvent ts ev with
    | (effs, none) => processEvents (applyEffs st effs) rest
    | (effs, some _) => (applyEffs st effs, false)

/-- One event through the handler together with its store mutation. -/
def processEventStore (ts : String) (st : Store) (ev : Option JVal) :
    Store × Option PyErr :=
  (applyEffs st (processEvent ts ev).1, (processEvent ts ev).2)

/-- A single-channel-shape event with one alternative and no
`channel_index` field. -/
def mkSingleEv (t : String) (conf : Dec) (isFin : Bool) : JVal :=
  .jobj [("channel", .jobj [("alternatives",
      .jarr [.jobj [("transcript", .jstr t), ("confidence", .jnum conf)]])]),
    ("is_final", .jbool isFin)]

/-- A well-formed final event addressed to channel index 5. -/
def evChannel5Final : JVal :=
  .jobj [("channel", .jobj [("alternatives",
      .jarr [.jobj [("transcript", .jstr "hi"), ("confidence", .jnum ⟨92, 2⟩)]])]),
    ("is_final", .jbool true), ("channel_index", .jarr [.jnum ⟨5, 0⟩])]

/-- A multichannel-shape event whose first alternative lacks the
`transcript` field: line 223 raises `KeyError`, which the handler catches. -/
def evMissingTranscript : JVal :=
  .jobj [("results", .jobj [("channels",
    .jarr [.jobj [("alternatives", .jarr [.jobj [("confidence", .jnum ⟨1, 0⟩)]])]])])]

/-- A stream whose first event is a bare JSON number (no recognizable
shape) and whose second is a well-formed final result for channel 0. -/
def badShapeEvents : List (String × Option JVal) :=
  [("t1", some (.jnum ⟨5, 0⟩)), ("t2", some (mkSingleEv "hi" ⟨92, 2⟩ true))]

/-- A stream of per-event failures the handler recovers from (a parse
failure, a caught `KeyError`) followed by a good interim event. -/
def recoverableEvents : List (String × Option JVal) :=
  [("t1", none), ("t2", some evMissingTranscript),
    ("t3", some (mkSingleEv "ok" ⟨1, 0⟩ false))]

/-- Session-start header written to each channel log (line 97). -/
def sessionHeader (ts : String) : String :=
  "=== New Session Started at " ++ ts ++ " ===\n\n"

/-- Session-start content of each interim file (line 103). -/
def interimHeader (ts : String) : String :=
  "=== Interim Initialized at " ++ ts ++ " ===\n"

/-- The store right after session initialisation (lines 93-103): both
channel logs truncated to a header, both interim slots cleared, both
interim files reset. -/
def initStore (ts : String) : Store :=
  { interim := [(.knum ⟨0, 0⟩, ⟨"", ⟨0, 0⟩, "" ⟩), (.knum ⟨1, 0⟩, ⟨"", ⟨0, 0⟩, ""⟩)]
    finalLog := [("channel_0.txt", [sessionHeader ts]),
      ("channel_1.txt", [sessionHeader ts])]
    interimFile := [("channel_0_interim.txt", interimHeader ts),
      ("channel_1_interim.txt", interimHeader ts)] }

/-! ## Store-operation wrappers (the `recordFinal` / `recordInterim` of the spec)

These are the exact store mutations the event paths execute for a numeric
channel index `c`: the typed face of `recordFinalRaw` / `recordInterimRaw`. -/

/-- Python `float(conf or 0.0)` on a number. -/
def orZero (d : Dec) : Dec := if d.mant = 0 then ⟨0, 0⟩ else d

def recordFinal (ts : String) (st : Store) (c : ℤ) (t : String) (conf : Dec) :
    Store :=
  applyEffs st (recordFinalRaw ts (.jnum ⟨c, 0⟩) (fmtDec2 conf) t).1

def recordInterim (ts : String) (st : Store) (c : ℤ) (t : String) (conf : Dec) :
    Store :=
  applyEffs st (recordInterimRaw ts (.jnum ⟨c, 0⟩) t (orZero conf) (fmtDec2 conf)).1

/-- Interim snapshot of channel `c` (the `LATEST_INTERIM` dict slot). -/
def interimOf (st : Store) (c : ℤ) : Option Interim :=
  alookup (.knum ⟨c, 0⟩) st.interim

/-- Lines so far appended to the final log file of channel `c`. -/
def logOf (st : Store) (c : ℤ) : List String :=
  (alookup ("channel_" ++ toString c ++ ".txt") st.finalLog).getD []

/-- A store-operation trace: the operations of the Transcript State Store,
each with the timestamp it runs at. -/
inductive SIOp where
  | opInterim (c : ℤ) (t : String) (conf : Dec)
  | opFinal (c : ℤ) (t : String) (conf : Dec)

def applyOp (st : Store) : String × SIOp → Store
  | (ts, .opInterim c t conf) => recordInterim ts st c t conf
  | (ts, .opFinal c t conf) => recordFinal ts st c t conf

def applyOps (st : Store) (ops : List (String × SIOp)) : Store :=
  ops.foldl applyOp st

/-- Specification view for the last-write-wins claim: the transcript and
confidence value of the most recent interim for `c` not followed by a final
for `c`, scanning a reversed trace. -/
def lastInterimRev (c : ℤ) : List (String × SIOp) → Option (String × ℚ)
  | [] => none
  | (_, .opInterim c' t conf) :: rest =>
    if c' = c then some (t, conf.val) else lastInterimRev c rest
  | (_, .opFinal c' _ _) :: rest =>
    if c' = c then none else lastInterimRev c rest

/-- The most recent interim for `c` since the last final for `c` (or since
session start), in trace order. -/
def lastInterim (c : ℤ) (ops : List (String × SIOp)) : Option (String × ℚ) :=
  lastInterimRev c ops.reverse

/-! ## The audio forward path (`forward_audio`) and debug snippet recorder -/

/-- Per-connection debug state (lines 106-108): the two mono byte
accumulators and the two snippet counters. -/
structure DebugSt where
  bufL : List ℕ
  bufR : List ℕ
  idxL : ℕ
  idxR : ℕ
  deriving DecidableEq

def initDebug : DebugSt := ⟨[], [], 0, 0⟩

/-- Externally visible actions of `forward_audio`. -/
inductive Action where
  | sendBytes (data : List ℕ)
  | sendText (msg : String)
  | wait (seconds : ℕ)
  | writeSnippet (ch : ℕ) (idx : ℕ) (data : List ℕ)
  | writeTrailingSnippet (ch : ℕ) (idx : ℕ) (data : List ℕ)
  | closeGateway
  deriving DecidableEq

/-- The one-line control directive sent on client disconnect (line 157). -/
def finalizeDirective : String := "\x7b\"type\":\"Finalize\"\x7d"

/-- Consecutive byte pairs (the 16-bit samples the array module reads); only
applied to even-length data, where it loses nothing. -/
def pairs2 : List ℕ → List (ℕ × ℕ)
  | a :: b :: rest => (a, b) :: pairs2 rest
  | _ => []

/-- Elements at even indices (`samples[0::2]`). -/
def evens {α : Type} : List α → List α
  | [] => []
  | [a] => [a]
  | a :: _ :: rest => a :: evens rest

/-- Elements at odd indices (`samples[1::2]`). -/
def odds {α : Type} : List α → List α
  | [] => []
  | _ :: rest => evens rest

def unpair2 (l : List (ℕ × ℕ)) : List ℕ := l.flatMap fun p => [p.1, p.2]

/-- Channel-0 bytes of an interleaved stereo byte buffer:
`samples[0::2].tobytes()`. -/
def leftBytes (data : List ℕ) : List ℕ := unpair2 (evens (pairs2 data))

/-- Channel-1 bytes of an interleaved stereo byte buffer:
`samples[1::2].tobytes()`. -/
def rightBytes (data : List ℕ) : List ℕ := unpair2 (odds (pairs2 data))

/-- The flush loop body (lines 143-148), with fuel.  Each pass through the
while loop increments the counter and the guard needs the counter below
`MAX`, so `MAX - idx` fuel is never exhausted before the guard fails. -/
def flushIter (T MAX : ℕ) : ℕ → List ℕ → ℕ → List (List ℕ) × List ℕ × ℕ
  | 0, buf, idx => ([], buf, idx)
  | fuel + 1, buf, idx =>
    if T ≤ buf.length ∧ idx < MAX then
      let r := flushIter T MAX fuel (buf.drop T) (idx + 1)
      (buf.take T :: r.1, r.2)
    else ([], buf, idx)

/-- The loop `while len(buf) >= target_bytes_per_channel and
debug_snippet_idx[ch] < AUDIO_DEBUG_MAX_SNIPPETS:` (lines 143-148): emit threshold-sized prefixes,
returning them with the remaining buffer and the new counter. -/
def flushChan (T MAX : ℕ) (buf : List ℕ) (idx : ℕ) :
    List (List ℕ) × List ℕ × ℕ :=
  flushIter T MAX (MAX - idx) buf idx

/-- WAV snippet writes for a flush result, numbered from the starting
counter (line 145-146). -/
def snippetActions (ch : ℕ) : ℕ → List (List ℕ) → List Action
  | _, [] => []
  | i, s :: rest => .writeSnippet ch i s :: snippetActions ch (i + 1) rest

/-- One pass of the receive loop body (lines 129-152) on one client frame:
an empty frame does nothing; with debug on, an even-length frame is
deinterleaved into the accumulators and both channels are flushed (left
first), an odd-length frame fails `frombytes` (caught, debug skipped);
every nonempty frame is then forwarded to the gateway unmodified. -/
def frameStep (dbg : Bool) (T MAX : ℕ) (st : DebugSt) (data : List ℕ) :
    DebugSt × List Action :=
  if data = [] then (st, [])
  else if dbg then
    if data.length % 2 = 0 then
      let rL := flushChan T MAX (st.bufL ++ leftBytes data) st.idxL
      let rR := flushChan T MAX (st.bufR ++ rightBytes data) st.idxR
      (⟨rL.2.1, rR.2.1, rL.2.2, rR.2.2⟩,
        snippetActions 0 st.idxL rL.1 ++ snippetActions 1 st.idxR rR.1 ++
          [.sendBytes data])
    else (st, [.sendBytes data])
  else (st, [.sendBytes data])

/-- The receive loop over a whole stream of client frames. -/
def processStream (dbg : Bool) (T MAX : ℕ) :
    DebugSt → List (List ℕ) → DebugSt × List Action
  | st, [] => (st, [])
  | st, data :: rest =>
    let r1 := frameStep dbg T MAX st data
    let r2 := processStream dbg T MAX r1.1 rest
    (r2.1, r1.2 ++ r2.2)

/-- The disconnect-time flush (lines 160-169): for each channel in order,
if the accumulator is nonempty and the counter is under the cap, write one
trailing snippet with the whole leftover buffer and bump the counter. -/
def teardownFlush (dbg : Bool) (MAX : ℕ) (st : DebugSt) : DebugSt × List Action :=
  if dbg then
    let pL : ℕ × List Action :=
      if st.bufL ≠ [] ∧ st.idxL < MAX then
        (st.idxL + 1, [.writeTrailingSnippet 0 st.idxL st.bufL])
      else (st.idxL, [])
    let pR : ℕ × List Action :=
      if st.bufR ≠ [] ∧ st.idxR < MAX then
        (st.idxR + 1, [.writeTrailingSnippet 1 st.idxR st.bufR])
      else (st.idxR, [])
    ({ st with idxL := pL.1, idxR := pR.1 }, pL.2 ++ pR.2)
  else (st, [])

/-- The `WebSocketDisconnect` handler (lines 154-172): send the finalize
directive, sleep one second for trailing results, flush the leftover debug
buffers, then close the gateway connection. -/
def disconnectHandler (dbg : Bool) (MAX : ℕ) (st : DebugSt) :
    DebugSt × List Action :=
  let r := teardownFlush dbg MAX st
  (r.1, .sendText finalizeDirective :: .wait 1 :: (r.2 ++ [.closeGateway]))

/-- The accumulator of channel `c` (`debug_left_buffer` / `debug_right_buffer`). -/
def accOf (c : Fin 2) (st : DebugSt) : List ℕ := if c = 0 then st.bufL else st.bufR

/-- The snippet counter of channel `c` (`debug_snippet_idx[c]`). -/
def ctrOf (c : Fin 2) (st : DebugSt) : ℕ := if c = 0 then st.idxL else st.idxR

/-- The regular snippets a trace emitted for one channel. -/
def emittedSnips (ch : ℕ) (acts : List Action) : List (List ℕ) :=
  acts.filterMap fun a =>
    match a with
    | .writeSnippet c _ d => if c = ch then some d else none
    | _ => none

/-- The trailing snippets a trace emitted for one channel. -/
def trailingSnips (ch : ℕ) (acts : List Action) : List (List ℕ) :=
  acts.filterMap fun a =>
    match a with
    | .writeTrailingSnippet c _ d => if c = ch then some d else none
    | _ => none

/-! ## Association-list lemmas -/

theorem alookup_append {κ α : Type} [DecidableEq κ] (k : κ) (a b : List (κ × α)) :
    alookup k (a ++ b) =
      match alookup k a with
      | some v => some v
      | none => alookup k b := by
  induction a with
  | nil => simp [alookup]
  | cons p rest ih =>
    by_cases h : p.1 = k <;> simp [alookup, h, ih]

theorem alookup_replaceMap_self {κ α : Type} [DecidableEq κ] (k : κ) (v w : α) :
    ∀ d : List (κ × α), alookup k d = some w →
      alookup k (d.map fun p => if p.1 = k then (k, v) else p) = some v := by
  intro d
  induction d with
  | nil => intro h; simp [alookup] at h
  | cons p rest ih =>
    intro h
    by_cases hp : p.1 = k
    · simp [alookup, hp]
    · simp [alookup, hp] at h
      simp [alookup, hp, ih h]

theorem alookup_replaceMap_other {κ α : Type} [DecidableEq κ] {k k' : κ} (v : α)
    (hkk : k' ≠ k) :
    ∀ d : List (κ × α),
      alookup k' (d.map fun p => if p.1 = k then (k, v) else p) = alookup k' d := by
  intro d
  induction d with
  | nil => simp [alookup]
  | cons p rest ih =>
    by_cases hp : p.1 = k
    · have : k ≠ k' := fun h => hkk h.symm
      simp [alookup, hp, this, ih]
    · simp [alookup, hp, ih]

theorem alookup_dictSet_self {κ α : Type} [DecidableEq κ] (d : List (κ × α))
    (k : κ) (v : α) : alookup k (dictSet d k v) = some v := by
  unfold dictSet
  cases h : alookup k d with
  | some w =>
    simpa using alookup_replaceMap_self k v w d h
  | none =>
    rw [alookup_append, h]
    simp [alookup]

theorem alookup_dictSet_other {κ α : Type} [DecidableEq κ] (d : List (κ × α))
    {k k' : κ} (v : α) (hkk : k' ≠ k) :
    alookup k' (dictSet d k v) = alookup k' d := by
  unfold dictSet
  cases h : alookup k d with
  | some w =>
    simpa using alookup_replaceMap_other v hkk d
  | none =>
    rw [alookup_append]
    have : k ≠ k' := fun h => hkk h.symm
    cases h' : alookup k' d <;> simp [h', alookup, this]

theorem alookup_logAppend_self (d : List (String × List String)) (k : String)
    (line : String) :
    alookup k (logAppend d k line) = some ((alookup k d).getD [] ++ [line]) := by
  unfold logAppend
  cases h : alookup k d with
  | some ls =>
    simpa using alookup_replaceMap_self k (ls ++ [line]) ls d h
  | none =>
    rw [alookup_append, h]
    simp [alookup]

theorem alookup_logAppend_other (d : List (String × List String)) {k k' : String}
    (line : String) (hkk : k' ≠ k) :
    alookup k' (logAppend d k line) = alookup k' d := by
  unfold logAppend
  cases h : alookup k d with
  | some ls =>
    simpa using alookup_replaceMap_other (ls ++ [line]) hkk d
  | none =>
    rw [alookup_append]
    have : k ≠ k' := fun h => hkk h.symm
    cases h' : alookup k' d <;> simp [h', alookup, this]

/-! ## Store-operation lemmas -/

theorem strAssoc (a b c : String) : a ++ b ++ c = a ++ (b ++ c) := by
  apply String.ext
  simp [String.data_append]

theorem knum_ne_of_ne {c c' : ℤ} (h : c' ≠ c) :
    (PyKey.knum ⟨c', 0⟩) ≠ PyKey.knum ⟨c, 0⟩ := by
  simp [h]

theorem interimOf_recordFinal_self (ts : String) (st : Store) (c : ℤ)
    (t : String) (conf : Dec) :
    interimOf (recordFinal ts st c t conf) c = some ⟨"", ⟨0, 0⟩, ts⟩ := by
  simp [recordFinal, recordFinalRaw, toKey, canonDec, canonDecAux, applyEffs,
    applyEff, interimOf, write_transcription_to_file, write_interim_to_file,
    alookup_dictSet_self]

theorem interimOf_recordFinal_other (ts : String) (st : Store) {c c' : ℤ}
    (t : String) (conf : Dec) (h : c' ≠ c) :
    interimOf (recordFinal ts st c t conf) c' = interimOf st c' := by
  simp only [recordFinal, recordFinalRaw, toKey, canonDec, canonDecAux,
    applyEffs, applyEff, interimOf, write_transcription_to_file,
    write_interim_to_file, List.foldl]
  exact alookup_dictSet_other _ _ (knum_ne_of_ne h)

theorem interimOf_recordInterim_self (ts : String) (st : Store) (c : ℤ)
    (t : String) (conf : Dec) :
    interimOf (recordInterim ts st c t conf) c = some ⟨t, orZero conf, ts⟩ := by
  simp [recordInterim, recordInterimRaw, toKey, canonDec, canonDecAux,
    applyEffs, applyEff, interimOf, write_interim_to_file, alookup_dictSet_self]

theorem interimOf_recordInterim_other (ts : String) (st : Store) {c c' : ℤ}
    (t : String) (conf : Dec) (h : c' ≠ c) :
    interimOf (recordInterim ts st c t conf) c' = interimOf st c' := by
  simp only [recordInterim, recordInterimRaw, toKey, canonDec, canonDecAux,
    applyEffs, applyEff, interimOf, write_interim_to_file, List.foldl]
  exact alookup_dictSet_other _ _ (knum_ne_of_ne h)

theorem decStr_int (c : ℤ) : decStr ⟨c, 0⟩ = toString c := by
  simp [decStr]

theorem logOf_recordFinal_self (ts : String) (st : Store) (c : ℤ)
    (t : String) (conf : Dec) :
    logOf (recordFinal ts st c t conf) c =
      logOf st c ++ [finalLine ts (fmtDec2 conf) t] := by
  simp only [recordFinal, recordFinalRaw, toKey, canonDec, canonDecAux,
    applyEffs, applyEff, logOf, write_transcription_to_file,
    write_interim_to_file, finalFileName, pyStrOf, decStr_int, List.foldl]
  rw [alookup_logAppend_self]
  simp

theorem pyOrFloat_jnum (d : Dec) : pyOrFloat (.jnum d) = .ok (orZero d) := by
  by_cases h : d.mant = 0 <;> simp [pyOrFloat, truthy, orZero, h]

theorem orZero_val (d : Dec) : (orZero d).val = d.val := by
  by_cases h : d.mant = 0 <;> simp [orZero, h, Dec.val]

theorem applyOps_append (st : Store) (l : List (String × SIOp))
    (p : String × SIOp) : applyOps st (l ++ [p]) = applyOp (applyOps st l) p := by
  simp [applyOps, List.foldl_append]

/-! ## Claim theorems -/

/-- C2: after `recordFinal(c, t, conf)` for a channel `c` in 0/1 and a
non-whitespace transcript `t`, the interim snapshot for `c` is empty with
confidence zero, and the final log for `c` has exactly one new appended
entry, which contains `t` and `conf` formatted to two decimal places. -/
theorem claim2_recordFinal_clears_interim_and_appends (ts : String) (st : Store)
    (c : ℤ) (t : String) (conf : Dec) (hc : c = 0 ∨ c = 1)
    (ht : pyStrip t ≠ "") :
    interimOf (recordFinal ts st c t conf) c = some ⟨"", ⟨0, 0⟩, ts⟩ ∧
    logOf (recordFinal ts st c t conf) c =
      logOf st c ++ [finalLine ts (fmtDec2 conf) t] ∧
    (∃ pre post, finalLine ts (fmtDec2 conf) t = pre ++ (t ++ post)) ∧
    (∃ pre post, finalLine ts (fmtDec2 conf) t = pre ++ (fmtDec2 conf ++ post)) := by
  refine ⟨interimOf_recordFinal_self ts st c t conf,
    logOf_recordFinal_self ts st c t conf, ?_, ?_⟩
  · exact ⟨"[" ++ ts ++ "] (confidence: " ++ fmtDec2 conf ++ ") ", "\n",
      by simp [finalLine, strAssoc]⟩
  · exact ⟨"[" ++ ts ++ "] (confidence: ", ") " ++ t ++ "\n",
      by simp [finalLine, strAssoc]⟩

theorem claim2_witness :
    ((0 : ℤ) = 0 ∨ (0 : ℤ) = 1) ∧ pyStrip "hello" ≠ "" ∧
    interimOf (recordFinal "T" (initStore "t0") 0 "hello" ⟨92, 2⟩) 0 =
      some ⟨"", ⟨0, 0⟩, "T"⟩ :=
  ⟨Or.inl rfl, by decide,
    (claim2_recordFinal_clears_interim_and_appends "T" (initStore "t0") 0
      "hello" ⟨92, 2⟩ (Or.inl rfl) (by decide)).1⟩

/-- C4 is false of the code: a well-formed final event carrying channel
index 5 is neither rejected nor a no-op.  It is processed without error, it
appends a line to the (freshly created) log of channel 5, and it creates a
new `LATEST_INTERIM` entry for index 5. -/
theorem claim4_counterexample :
    (processEventStore "t1" (initStore "t0") (some evChannel5Final)).2 = none ∧
    alookup "channel_5.txt"
        (processEventStore "t1" (initStore "t0") (some evChannel5Final)).1.finalLog =
      some [finalLine "t1" "0.92" "hi"] ∧
    interimOf (processEventStore "t1" (initStore "t0") (some evChannel5Final)).1 5 =
      some ⟨"", ⟨0, 0⟩, "t1"⟩ := by
  decide

/-- C4 amended: channel-indexed store operations are unguarded.  For every
integer channel index `c`, including those outside 0/1, recording a final
appends an entry to the log of that index and overwrites (or creates) the
interim snapshot of that index, and recording an interim overwrites (or
creates) that snapshot; nothing is rejected and no warning path exists. -/
theorem claim4_amended_unguarded (ts : String) (st : Store) (c : ℤ)
    (t : String) (conf : Dec) :
    logOf (recordFinal ts st c t conf) c =
      logOf st c ++ [finalLine ts (fmtDec2 conf) t] ∧
    interimOf (recordFinal ts st c t conf) c = some ⟨"", ⟨0, 0⟩, ts⟩ ∧
    interimOf (recordInterim ts st c t conf) c = some ⟨t, orZero conf, ts⟩ :=
  ⟨logOf_recordFinal_self ts st c t conf,
    interimOf_recordFinal_self ts st c t conf,
    interimOf_recordInterim_self ts st c t conf⟩

/-- C10: a single-channel-shape event lacking the `channel_index` field is
not skipped; `response.get("channel_index", [0])[0]` defaults it to channel
0, so its transcript lands in the interim snapshot of channel 0 (interim
case) or in its final log (final case). -/
theorem claim10_missing_channel_index_defaults_to_zero (ts : String)
    (st : Store) (t : String) (conf : Dec) (ht : pyStrip t ≠ "") :
    processEventStore ts st (some (mkSingleEv t conf false)) =
      (recordInterim ts st 0 t conf, none) ∧
    processEventStore ts st (some (mkSingleEv t conf true)) =
      (recordFinal ts st 0 t conf, none) := by
  constructor <;>
    simp [processEventStore, processEvent, processBody, mkSingleEv, pyContains,
      alookup, pySubscrStr, singleBranch, truthy, pySubscrZero, pyGet,
      checkTranscript, ht, pyFmt2f, pyOrFloat_jnum, recordInterim, recordFinal,
      recordInterimRaw, recordFinalRaw, toKey, canonDec, canonDecAux]

theorem claim10_witness :
    pyStrip "hello" ≠ "" ∧
    processEventStore "T" (initStore "t0") (some (mkSingleEv "hello" ⟨92, 2⟩ false)) =
      (recordInterim "T" (initStore "t0") 0 "hello" ⟨92, 2⟩, none) :=
  ⟨by decide,
    (claim10_missing_channel_index_defaults_to_zero "T" (initStore "t0")
      "hello" ⟨92, 2⟩ (by decide)).1⟩

/-- C1 is false of the code: the per-event handler catches only JSON parse
failures and `KeyError`.  A bare JSON number event has no recognizable
shape, but probing it (`"channel" in response`) raises `TypeError`, which
escapes to the outer handler and ends the loop: the stream below stops
before its second, well-formed final event, whose line never reaches the
channel 0 log. -/
theorem claim1_counterexample :
    (processEvents (initStore "t0") badShapeEvents).2 = false ∧
    logOf (processEvents (initStore "t0") badShapeEvents).1 0 =
      [sessionHeader "t0"] := by
  decide

/-- C1 amended: an event that fails to parse as JSON is dropped with the
loop continuing, and the loop consumes every event of a stream whose
events each process without an uncaught error (in particular parse
failures and events raising `KeyError` are recovered); an event raising
any other error terminates the loop. -/
theorem claim1_amended_recoverable_stream (st : Store)
    (evs : List (String × Option JVal))
    (h : ∀ p ∈ evs, (processEvent p.1 p.2).2 = none) :
    (processEvents st evs).2 = true ∧
    ∀ ts : String, processEvent ts none = ([], none) := by
  refine ⟨?_, fun ts => rfl⟩
  induction evs generalizing st with
  | nil => rfl
  | cons p rest ih =>
    obtain ⟨ts, ev⟩ := p
    have h1 : (processEvent ts ev).2 = none := h _ (List.mem_cons_self _ _)
    have hrest : ∀ q ∈ rest, (processEvent q.1 q.2).2 = none :=
      fun q hq => h q (List.mem_cons_of_mem _ hq)
    rcases hE : processEvent ts ev with ⟨effs, e⟩
    rw [hE] at h1
    simp only at h1
    subst h1
    simp only [processEvents, hE]
    exact ih _ hrest

theorem claim1_witness :
    (∀ p ∈ recoverableEvents, (processEvent p.1 p.2).2 = none) ∧
    (processEvents (initStore "t0") recoverableEvents).2 = true :=
  ⟨by decide,
    (claim1_amended_recoverable_stream (initStore "t0") recoverableEvents
      (by decide)).1⟩

/-- C7: after any sequence of store operations since session start, the
interim snapshot of channel `c` holds exactly the transcript and confidence
value of the most recent `recordInterim` for `c` not followed by a
`recordFinal` for `c` (last write wins), and the cleared empty/zero value
otherwise — never an older interim. -/
theorem claim7_interim_last_write_wins (ts0 : String)
    (ops : List (String × SIOp)) (c : ℤ) (hc : c = 0 ∨ c = 1) :
    (interimOf (applyOps (initStore ts0) ops) c).map
        (fun i => (i.transcript, i.confidence.val)) =
      some ((lastInterim c ops).getD ("", 0)) := by
  induction ops using List.reverseRecOn with
  | nil =>
    rcases hc with rfl | rfl <;>
      simp [initStore, interimOf, alookup, applyOps, lastInterim,
        lastInterimRev, Dec.val]
  | append_singleton l p ih =>
    obtain ⟨ts, op⟩ := p
    rw [applyOps_append]
    have hrev : (l ++ [(ts, op)]).reverse = (ts, op) :: l.reverse := by
      simp
    cases op with
    | opInterim c' t conf =>
      by_cases hcc : c' = c
      · subst hcc
        simp [applyOp, interimOf_recordInterim_self, lastInterim, hrev,
          lastInterimRev, orZero_val]
      · simp only [applyOp]
        rw [interimOf_recordInterim_other ts _ t conf
          (fun hh => hcc hh.symm)]
        simp only [lastInterim, hrev, lastInterimRev, if_neg hcc]
        exact ih
    | opFinal c' t conf =>
      by_cases hcc : c' = c
      · subst hcc
        simp [applyOp, interimOf_recordFinal_self, lastInterim, hrev,
          lastInterimRev, Dec.val]
      · simp only [applyOp]
        rw [interimOf_recordFinal_other ts _ t conf
          (fun hh => hcc hh.symm)]
        simp only [lastInterim, hrev, lastInterimRev, if_neg hcc]
        exact ih

theorem claim7_witness :
    ((0 : ℤ) = 0 ∨ (0 : ℤ) = 1) ∧
    (interimOf (applyOps (initStore "t0")
        [("t1", .opInterim 0 "he" ⟨5, 1⟩), ("t2", .opInterim 0 "hello" ⟨92, 2⟩)]) 0).map
        (fun i => (i.transcript, i.confidence.val)) =
      some ((lastInterim 0
        [("t1", .opInterim 0 "he" ⟨5, 1⟩), ("t2", .opInterim 0 "hello" ⟨92, 2⟩)]).getD ("", 0)) :=
  ⟨Or.inl rfl,
    claim7_interim_last_write_wins "t0"
      [("t1", .opInterim 0 "he" ⟨5, 1⟩), ("t2", .opInterim 0 "hello" ⟨92, 2⟩)] 0
      (Or.inl rfl)⟩

/-! ## Deinterleaving and flush-loop lemmas -/

theorem odds_cons {α : Type} (x : α) (l : List α) : odds (x :: l) = evens l := rfl

theorem evens_cons {α : Type} (x : α) (l : List α) : evens (x :: l) = x :: odds l := by
  cases l <;> rfl

theorem evens_odds_append {α : Type} :
    ∀ (a b : List α), a.length % 2 = 0 →
      evens (a ++ b) = evens a ++ evens b ∧ odds (a ++ b) = odds a ++ odds b
  | [], _, _ => by simp [evens, odds]
  | [x], _, h => by simp at h
  | x :: y :: rest, b, h => by
    have h2 : rest.length % 2 = 0 := by
      simp [List.length_cons] at h
      omega
    obtain ⟨he, ho⟩ := evens_odds_append rest b h2
    refine ⟨?_, ?_⟩
    · simp only [List.cons_append]
      show x :: evens (rest ++ b) = x :: evens rest ++ evens b
      simp [he]
    · simp only [List.cons_append, odds_cons, evens_cons, ho]

theorem pairs2_append : ∀ (a b : List ℕ), a.length % 2 = 0 →
    pairs2 (a ++ b) = pairs2 a ++ pairs2 b
  | [], _, _ => rfl
  | [x], _, h => by simp at h
  | x :: y :: rest, b, h => by
    have h2 : rest.length % 2 = 0 := by
      simp [List.length_cons] at h
      omega
    simp only [List.cons_append]
    show (x, y) :: pairs2 (rest ++ b) = (x, y) :: pairs2 rest ++ pairs2 b
    simp [pairs2_append rest b h2]

theorem pairs2_length : ∀ a : List ℕ, (pairs2 a).length = a.length / 2
  | [] => rfl
  | [x] => by simp [pairs2]
  | x :: y :: rest => by
    show (pairs2 rest).length + 1 = (rest.length + 1 + 1) / 2
    rw [pairs2_length rest]
    omega

theorem unpair2_append (a b : List (ℕ × ℕ)) :
    unpair2 (a ++ b) = unpair2 a ++ unpair2 b := by
  simp [unpair2]

theorem leftBytes_append (a b : List ℕ) (h : a.length % 4 = 0) :
    leftBytes (a ++ b) = leftBytes a ++ leftBytes b := by
  have h2 : a.length % 2 = 0 := by omega
  have hp : (pairs2 a).length % 2 = 0 := by
    rw [pairs2_length]
    omega
  rw [leftBytes, pairs2_append a b h2, (evens_odds_append _ _ hp).1,
    unpair2_append]
  rfl

theorem rightBytes_append (a b : List ℕ) (h : a.length % 4 = 0) :
    rightBytes (a ++ b) = rightBytes a ++ rightBytes b := by
  have h2 : a.length % 2 = 0 := by omega
  have hp : (pairs2 a).length % 2 = 0 := by
    rw [pairs2_length]
    omega
  rw [rightBytes, pairs2_append a b h2, (evens_odds_append _ _ hp).2,
    unpair2_append]
  rfl

theorem leftBytes_nil : leftBytes [] = [] := rfl

theorem rightBytes_nil : rightBytes [] = [] := rfl

theorem flushIter_join (T MAX : ℕ) :
    ∀ (fuel : ℕ) (buf : List ℕ) (idx : ℕ),
      ((flushIter T MAX fuel buf idx).1).join ++ (flushIter T MAX fuel buf idx).2.1 = buf
  | 0, buf, idx => by simp [flushIter]
  | fuel + 1, buf, idx => by
    by_cases h : T ≤ buf.length ∧ idx < MAX
    · simp only [flushIter, if_pos h, List.join_cons]
      rw [List.append_assoc, flushIter_join T MAX fuel (buf.drop T) (idx + 1)]
      exact List.take_append_drop T buf
    · simp [flushIter, if_neg h]

theorem flushIter_idx_le (T MAX : ℕ) :
    ∀ (fuel : ℕ) (buf : List ℕ) (idx : ℕ), idx ≤ (flushIter T MAX fuel buf idx).2.2
  | 0, _, _ => le_refl _
  | fuel + 1, buf, idx => by
    by_cases h : T ≤ buf.length ∧ idx < MAX
    · simp only [flushIter, if_pos h]
      exact le_trans (Nat.le_succ idx)
        (flushIter_idx_le T MAX fuel (buf.drop T) (idx + 1))
    · simp [flushIter, if_neg h]

theorem flushIter_idx_bound (T MAX : ℕ) :
    ∀ (fuel : ℕ) (buf : List ℕ) (idx : ℕ), idx ≤ MAX →
      (flushIter T MAX fuel buf idx).2.2 ≤ MAX
  | 0, _, _, h => h
  | fuel + 1, buf, idx, hle => by
    by_cases h : T ≤ buf.length ∧ idx < MAX
    · simp only [flushIter, if_pos h]
      exact flushIter_idx_bound T MAX fuel (buf.drop T) (idx + 1) h.2
    · simpa [flushIter, if_neg h] using hle

theorem flushChan_join (T MAX : ℕ) (buf : List ℕ) (idx : ℕ) :
    ((flushChan T MAX buf idx).1).join ++ (flushChan T MAX buf idx).2.1 = buf :=
  flushIter_join T MAX (MAX - idx) buf idx

theorem emittedSnips_append (ch : ℕ) (a b : List Action) :
    emittedSnips ch (a ++ b) = emittedSnips ch a ++ emittedSnips ch b := by
  simp [emittedSnips, List.filterMap_append]

theorem emittedSnips_snippetActions_self (ch : ℕ) (snips : List (List ℕ)) :
    ∀ i, emittedSnips ch (snippetActions ch i snips) = snips := by
  induction snips with
  | nil => intro i; rfl
  | cons s rest ih =>
    intro i
    have h := ih (i + 1)
    simp only [snippetActions, emittedSnips, List.filterMap_cons] at h ⊢
    simp [h]

theorem emittedSnips_snippetActions_ne {ch ch' : ℕ} (h : ch' ≠ ch)
    (snips : List (List ℕ)) :
    ∀ i, emittedSnips ch (snippetActions ch' i snips) = [] := by
  induction snips with
  | nil => intro i; rfl
  | cons s rest ih =>
    intro i
    have hr := ih (i + 1)
    simp only [snippetActions, emittedSnips, List.filterMap_cons] at hr ⊢
    simp [h, hr]

theorem emittedSnips_sendBytes (ch : ℕ) (data : List ℕ) :
    emittedSnips ch [Action.sendBytes data] = [] := rfl

theorem frameStep_content (T MAX : ℕ) (st : DebugSt) (data : List ℕ)
    (h4 : data.length % 4 = 0) :
    (emittedSnips 0 (frameStep true T MAX st data).2).join ++
        (frameStep true T MAX st data).1.bufL = st.bufL ++ leftBytes data ∧
    (emittedSnips 1 (frameStep true T MAX st data).2).join ++
        (frameStep true T MAX st data).1.bufR = st.bufR ++ rightBytes data := by
  by_cases hd : data = []
  · subst hd
    simp [frameStep, leftBytes_nil, rightBytes_nil, emittedSnips]
  · have h2 : data.length % 2 = 0 := by omega
    simp only [frameStep, if_neg hd, if_pos h2, eq_self_iff_true, if_true]
    constructor
    · rw [emittedSnips_append, emittedSnips_append,
        emittedSnips_snippetActions_self,
        emittedSnips_snippetActions_ne (by decide) _ st.idxR,
        emittedSnips_sendBytes]
      simpa using flushChan_join T MAX (st.bufL ++ leftBytes data) st.idxL
    · rw [emittedSnips_append, emittedSnips_append,
        emittedSnips_snippetActions_ne (by decide) _ st.idxL,
        emittedSnips_snippetActions_self, emittedSnips_sendBytes]
      simpa using flushChan_join T MAX (st.bufR ++ rightBytes data) st.idxR

theorem frameStep_idx_le (dbg : Bool) (T MAX : ℕ) (st : DebugSt) (data : List ℕ) :
    st.idxL ≤ (frameStep dbg T MAX st data).1.idxL ∧
    st.idxR ≤ (frameStep dbg T MAX st data).1.idxR := by
  by_cases hd : data = []
  · simp [frameStep, hd]
  · cases dbg
    · simp [frameStep, hd]
    · by_cases h2 : data.length % 2 = 0 <;>
        simp [frameStep, hd, h2, flushIter_idx_le, flushChan]

theorem frameStep_idx_bound (dbg : Bool) (T MAX : ℕ) (st : DebugSt)
    (data : List ℕ) :
    (st.idxL ≤ MAX → (frameStep dbg T MAX st data).1.idxL ≤ MAX) ∧
    (st.idxR ≤ MAX → (frameStep dbg T MAX st data).1.idxR ≤ MAX) := by
  by_cases hd : data = []
  · simp [frameStep, hd]
  · cases dbg
    · simp [frameStep, hd]
    · by_cases h2 : data.length % 2 = 0 <;>
        simp [frameStep, hd, h2, flushChan] <;>
        exact ⟨fun h => flushIter_idx_bound _ _ _ _ _ h,
          fun h => flushIter_idx_bound _ _ _ _ _ h⟩

theorem processStream_append (dbg : Bool) (T MAX : ℕ) :
    ∀ (pre suf : List (List ℕ)) (st : DebugSt),
      processStream dbg T MAX st (pre ++ suf) =
        ((processStream dbg T MAX (processStream dbg T MAX st pre).1 suf).1,
          (processStream dbg T MAX st pre).2 ++
            (processStream dbg T MAX (processStream dbg T MAX st pre).1 suf).2)
  | [], suf, st => by simp [processStream]
  | d :: rest, suf, st => by
    simp only [List.cons_append, processStream, List.append_eq]
    rw [processStream_append dbg T MAX rest suf]
    simp [List.append_assoc]

theorem processStream_idx_le (dbg : Bool) (T MAX : ℕ) :
    ∀ (chunks : List (List ℕ)) (st : DebugSt),
      st.idxL ≤ (processStream dbg T MAX st chunks).1.idxL ∧
      st.idxR ≤ (processStream dbg T MAX st chunks).1.idxR
  | [], st => ⟨le_refl _, le_refl _⟩
  | d :: rest, st => by
    obtain ⟨hL, hR⟩ := frameStep_idx_le dbg T MAX st d
    obtain ⟨hL2, hR2⟩ :=
      processStream_idx_le dbg T MAX rest (frameStep dbg T MAX st d).1
    exact ⟨le_trans hL hL2, le_trans hR hR2⟩

theorem processStream_idx_bound (dbg : Bool) (T MAX : ℕ) :
    ∀ (chunks : List (List ℕ)) (st : DebugSt),
      (st.idxL ≤ MAX → (processStream dbg T MAX st chunks).1.idxL ≤ MAX) ∧
      (st.idxR ≤ MAX → (processStream dbg T MAX st chunks).1.idxR ≤ MAX)
  | [], _ => ⟨id, id⟩
  | d :: rest, st => by
    obtain ⟨hL, hR⟩ := frameStep_idx_bound dbg T MAX st d
    obtain ⟨hL2, hR2⟩ :=
      processStream_idx_bound dbg T MAX rest (frameStep dbg T MAX st d).1
    exact ⟨fun h => hL2 (hL h), fun h => hR2 (hR h)⟩

theorem processStream_content (T MAX : ℕ) :
    ∀ (chunks : List (List ℕ)), (∀ ck ∈ chunks, ck.length % 4 = 0) →
      ∀ st : DebugSt,
        (emittedSnips 0 (processStream true T MAX st chunks).2).join ++
            (processStream true T MAX st chunks).1.bufL =
          st.bufL ++ leftBytes chunks.join ∧
        (emittedSnips 1 (processStream true T MAX st chunks).2).join ++
            (processStream true T MAX st chunks).1.bufR =
          st.bufR ++ rightBytes chunks.join
  | [], _, st => by
    simp [processStream, leftBytes_nil, rightBytes_nil, emittedSnips]
  | d :: rest, h, st => by
    have hd : d.length % 4 = 0 := h d (List.mem_cons_self _ _)
    have hrest : ∀ ck ∈ rest, ck.length % 4 = 0 :=
      fun ck hck => h ck (List.mem_cons_of_mem _ hck)
    obtain ⟨ihL, ihR⟩ :=
      processStream_content T MAX rest hrest (frameStep true T MAX st d).1
    obtain ⟨fL, fR⟩ := frameStep_content T MAX st d hd
    constructor
    · simp only [processStream, emittedSnips_append, List.join_append,
        List.join_cons, List.cons_append]
      rw [List.append_assoc, ihL, ← List.append_assoc, fL, List.append_assoc,
        ← leftBytes_append d rest.join hd]
    · simp only [processStream, emittedSnips_append, List.join_append,
        List.join_cons, List.cons_append]
      rw [List.append_assoc, ihR, ← List.append_assoc, fR, List.append_assoc,
        ← rightBytes_append d rest.join hd]

theorem teardownFlush_trailing (dbg : Bool) (MAX : ℕ) (st : DebugSt) :
    ∀ a ∈ (teardownFlush dbg MAX st).2,
      ∃ ch i d, a = Action.writeTrailingSnippet ch i d := by
  intro a ha
  cases dbg
  · simp [teardownFlush] at ha
  · by_cases h1 : st.bufL ≠ [] ∧ st.idxL < MAX <;>
      by_cases h2 : st.bufR ≠ [] ∧ st.idxR < MAX <;>
      simp [teardownFlush, h1, h2] at ha <;>
      first
        | (rcases ha with rfl | rfl <;> exact ⟨_, _, _, rfl⟩)
        | (rcases ha with rfl; exact ⟨_, _, _, rfl⟩)

theorem teardownFlush_idx_le (dbg : Bool) (MAX : ℕ) (st : DebugSt) :
    st.idxL ≤ (teardownFlush dbg MAX st).1.idxL ∧
    st.idxR ≤ (teardownFlush dbg MAX st).1.idxR := by
  cases dbg
  · simp [teardownFlush]
  · by_cases h1 : st.bufL ≠ [] ∧ st.idxL < MAX <;>
      by_cases h2 : st.bufR ≠ [] ∧ st.idxR < MAX <;>
      simp [teardownFlush, h1, h2]

theorem teardownFlush_idx_bound (dbg : Bool) (MAX : ℕ) (st : DebugSt) :
    (st.idxL ≤ MAX → (teardownFlush dbg MAX st).1.idxL ≤ MAX) ∧
    (st.idxR ≤ MAX → (teardownFlush dbg MAX st).1.idxR ≤ MAX) := by
  cases dbg
  · simp [teardownFlush]
  · by_cases h1 : st.bufL ≠ [] ∧ st.idxL < MAX <;>
      by_cases h2 : st.bufR ≠ [] ∧ st.idxR < MAX <;>
      simp [teardownFlush, h1, h2] <;> omega

/-- C3: for any stream of whole stereo frames (byte length divisible by 4,
i.e. an even number of 16-bit samples), however the total input is chunked,
the per-channel concatenation of the emitted threshold-sized snippets
followed by the leftover accumulator equals exactly the per-channel byte
subsequence of the total input (channel 0 = even samples, channel 1 = odd
samples). -/
theorem claim3_deinterleave_reproduces_channels (T MAX : ℕ)
    (chunks : List (List ℕ)) (h : ∀ ck ∈ chunks, ck.length % 4 = 0) :
    (emittedSnips 0 (processStream true T MAX initDebug chunks).2).join ++
        (processStream true T MAX initDebug chunks).1.bufL =
      leftBytes chunks.join ∧
    (emittedSnips 1 (processStream true T MAX initDebug chunks).2).join ++
        (processStream true T MAX initDebug chunks).1.bufR =
      rightBytes chunks.join := by
  have := processStream_content T MAX chunks h initDebug
  simpa [initDebug] using this

theorem claim3_witness :
    (∀ ck ∈ [[1, 2, 3, 4], [5, 6, 7, 8, 9, 10, 11, 12]], ck.length % 4 = 0) ∧
    ((emittedSnips 0 (processStream true 6 30 initDebug
          [[1, 2, 3, 4], [5, 6, 7, 8, 9, 10, 11, 12]]).2).join ++
        (processStream true 6 30 initDebug
          [[1, 2, 3, 4], [5, 6, 7, 8, 9, 10, 11, 12]]).1.bufL =
      leftBytes ([[1, 2, 3, 4], [5, 6, 7, 8, 9, 10, 11, 12]] : List (List ℕ)).join) :=
  ⟨by decide,
    (claim3_deinterleave_reproduces_channels 6 30
      [[1, 2, 3, 4], [5, 6, 7, 8, 9, 10, 11, 12]] (by decide)).1⟩

/-- C5: for any input stream and any way of splitting it into a prefix and
a suffix, the snippet counter of each channel is non-decreasing from the prefix
to the full stream and from the full stream through the teardown flush
(which adds the trailing partial snippet), and never exceeds the configured
maximum. -/
theorem claim5_counter_monotone_and_capped (dbg : Bool) (T MAX : ℕ)
    (pre suf : List (List ℕ)) :
    (processStream dbg T MAX initDebug pre).1.idxL ≤
        (processStream dbg T MAX initDebug (pre ++ suf)).1.idxL ∧
    (processStream dbg T MAX initDebug (pre ++ suf)).1.idxL ≤
        (disconnectHandler dbg MAX
          (processStream dbg T MAX initDebug (pre ++ suf)).1).1.idxL ∧
    (disconnectHandler dbg MAX
        (processStream dbg T MAX initDebug (pre ++ suf)).1).1.idxL ≤ MAX ∧
    (processStream dbg T MAX initDebug pre).1.idxR ≤
        (processStream dbg T MAX initDebug (pre ++ suf)).1.idxR ∧
    (processStream dbg T MAX initDebug (pre ++ suf)).1.idxR ≤
        (disconnectHandler dbg MAX
          (processStream dbg T MAX initDebug (pre ++ suf)).1).1.idxR ∧
    (disconnectHandler dbg MAX
        (processStream dbg T MAX initDebug (pre ++ suf)).1).1.idxR ≤ MAX := by
  rw [processStream_append dbg T MAX pre suf]
  obtain ⟨mL, mR⟩ :=
    processStream_idx_le dbg T MAX suf (processStream dbg T MAX initDebug pre).1
  obtain ⟨bL, bR⟩ :=
    processStream_idx_bound dbg T MAX suf (processStream dbg T MAX initDebug pre).1
  obtain ⟨b0L, b0R⟩ := processStream_idx_bound dbg T MAX pre initDebug
  have hL : (processStream dbg T MAX
      (processStream dbg T MAX initDebug pre).1 suf).1.idxL ≤ MAX :=
    bL (b0L (Nat.zero_le MAX))
  have hR : (processStream dbg T MAX
      (processStream dbg T MAX initDebug pre).1 suf).1.idxR ≤ MAX :=
    bR (b0R (Nat.zero_le MAX))
  obtain ⟨tL, tR⟩ := teardownFlush_idx_le dbg MAX
    (processStream dbg T MAX (processStream dbg T MAX initDebug pre).1 suf).1
  obtain ⟨tbL, tbR⟩ := teardownFlush_idx_bound dbg MAX
    (processStream dbg T MAX (processStream dbg T MAX initDebug pre).1 suf).1
  exact ⟨mL, tL, tbL hL, mR, tR, tbR hR⟩

/-- C6: on session teardown with the recorder active, channel `c` gets
exactly one trailing snippet holding exactly its leftover accumulator bytes
when the accumulator is nonempty and the counter is under the cap, and no
trailing snippet otherwise. -/
theorem claim6_trailing_snippet_exactness (MAX : ℕ) (st : DebugSt) (c : Fin 2) :
    trailingSnips c (disconnectHandler true MAX st).2 =
      if accOf c st ≠ [] ∧ ctrOf c st < MAX then [accOf c st] else [] := by
  by_cases h1 : st.bufL ≠ [] ∧ st.idxL < MAX <;>
    by_cases h2 : st.bufR ≠ [] ∧ st.idxR < MAX <;>
    fin_cases c <;>
    simp [disconnectHandler, teardownFlush, trailingSnips, accOf, ctrOf, h1, h2]

/-- C9: an empty binary frame from the client is forwarded nowhere and fed
to nothing: the debug accumulators, the snippet counters and the gateway
stream are untouched, and the relay simply continues. -/
theorem claim9_empty_frame_noop (dbg : Bool) (T MAX : ℕ) (st : DebugSt) :
    frameStep dbg T MAX st [] = (st, []) := by
  simp [frameStep]

/-- C8: the disconnect handler emits exactly one finalize directive, first;
then the fixed one-second grace wait; the connection close comes last, after
any trailing-snippet writes; so the directive is never sent after the
close. -/
theorem claim8_finalize_handshake_order (dbg : Bool) (MAX : ℕ) (st : DebugSt) :
    ∃ mid,
      (disconnectHandler dbg MAX st).2 =
        .sendText finalizeDirective :: .wait 1 :: (mid ++ [.closeGateway]) ∧
      (∀ a ∈ mid, ∃ ch i d, a = Action.writeTrailingSnippet ch i d) ∧
      (disconnectHandler dbg MAX st).2.count (.sendText finalizeDirective) = 1 ∧
      (disconnectHandler dbg MAX st).2.count .closeGateway = 1 := by
  refine ⟨(teardownFlush dbg MAX st).2, rfl,
    teardownFlush_trailing dbg MAX st, ?_, ?_⟩
  · have hmid : Action.sendText finalizeDirective ∉ (teardownFlush dbg MAX st).2 := by
      intro hmem
      obtain ⟨ch, i, d, heq⟩ := teardownFlush_trailing dbg MAX st _ hmem
      simp at heq
    simp [disconnectHandler, List.count_cons, List.count_append,
      List.count_eq_zero.mpr hmid]
  · have hmid : Action.closeGateway ∉ (teardownFlush dbg MAX st).2 := by
      intro hmem
      obtain ⟨ch, i, d, heq⟩ := teardownFlush_trailing dbg MAX st _ hmem
      simp at heq
    simp [disconnectHandler, List.count_cons, List.count_append,
      List.count_eq_zero.mpr hmid]

end SF
